import Mathlib

/-!
Shallow embedding of the per-stream cuSparse handle cache of
`tensorflow/core/kernels/cuda_sparse.cc`.

The native cuSparse layer (`cusparseCreate`, `cusparseSetStream`,
`cusparseDestroy`, `cusparseXcoo2csr`) is modelled as an instrumented
environment `World`: an oracle assigning a status code to each successive
native call (0 = `CUSPARSE_STATUS_SUCCESS`), a log of the calls issued, and a
fresh-handle counter.  `CudaSparseHandles` mirrors the RAII class of lines
73-130: `Initialize` (lines 97-103), `handle` (105-113), `Release` (116-124),
the move constructor (78-83) and move assignment (85-93); the destructor
(line 95) just calls `Release`.  A `DCHECK` is modelled as a fatal outcome
(`DCheck.fatalCheck`, or a `Bool` fatal flag where the function also returns
data).  `CudaSparse.Initialize` (lines 163-181) is the acquire operation over
the process-wide map (modelled as an association list keyed by the opaque
stream id); the body of the source function holds `handle_map_mutex` for its
whole duration, so a concurrent execution of acquires is modelled as a
sequence of atomic acquire steps (`runAcquires`).
-/

deriving instance DecidableEq for Except

namespace CudaSparseSpec

/-- One issued native cuSparse call, with its arguments. -/
inductive NEvent where
  | create (handle : Nat)
  | setStream (handle stream : Nat)
  | destroy (handle : Nat)
  | xcoo2csr (handle : Nat)
deriving DecidableEq, Repr

/-- The instrumented native layer: `oracle` gives the status code returned by
the k-th native call overall (missing entries default to 0 = success),
`calls` logs every call issued so far in order, `nextHandle` generates fresh
opaque handle values for `cusparseCreate`. -/
structure World where
  oracle : List Nat
  calls : List NEvent
  nextHandle : Nat
deriving DecidableEq, Repr

/-- Status code the next native call will return. -/
def World.status (w : World) : Nat := w.oracle.getD w.calls.length 0

def NEvent.isCreate : NEvent → Bool
  | .create _ => true
  | _ => false

/-- Number of `cusparseCreate` calls issued so far. -/
def World.creates (w : World) : Nat := (w.calls.filter NEvent.isCreate).length

/-- Native `cusparseCreate`: returns (status, fresh handle value, new world). -/
def cusparseCreate (w : World) : Nat × Nat × World :=
  (w.status, w.nextHandle,
    { w with calls := w.calls ++ [NEvent.create w.nextHandle],
             nextHandle := w.nextHandle + 1 })

/-- Native `cusparseSetStream`: binds handle `h` to stream `s`. -/
def cusparseSetStream (h s : Nat) (w : World) : Nat × World :=
  (w.status, { w with calls := w.calls ++ [NEvent.setStream h s] })

/-- Native `cusparseDestroy`. -/
def cusparseDestroy (h : Nat) (w : World) : Nat × World :=
  (w.status, { w with calls := w.calls ++ [NEvent.destroy h] })

/-- Native `cusparseXcoo2csr` (the wrapped computational call of `Coo2csr`);
the array arguments are opaque to the cache layer and omitted. -/
def cusparseXcoo2csr (h : Nat) (w : World) : Nat × World :=
  (w.status, { w with calls := w.calls ++ [NEvent.xcoo2csr h] })

/-- Outcome of an operation guarded by a `DCHECK`: either the value, or the
fatal check fired (a programming-contract violation, not a recoverable
error). -/
inductive DCheck (α : Type) where
  | ok (a : α)
  | fatalCheck
deriving DecidableEq, Repr

/-- The handle entry of lines 73-130: `initialized_`, the bound stream, and
the owned native handle (meaningful only when `initialized_`). -/
structure CudaSparseHandles where
  initialized_ : Bool
  stream_ : Nat
  cusparse_handle_ : Nat
deriving DecidableEq, Repr

/-- The constructor `CudaSparseHandles(cudaStream_t stream)` (lines 75-76):
`initialized_(false), stream_(stream)`; `cusparse_handle_` is unwritten
garbage, modelled as 0. -/
def CudaSparseHandles.mkForStream (stream : Nat) : CudaSparseHandles :=
  ⟨false, stream, 0⟩

/-- Result of `CudaSparseHandles::Initialize` (lines 97-103): the returned
Status (error = native status code), the entry afterwards, the world
afterwards. -/
structure InitResult where
  status : Except Nat Unit
  entry : CudaSparseHandles
  world : World
deriving DecidableEq, Repr

/-- `CudaSparseHandles::Initialize` (lines 97-103): if already initialized
return OK; otherwise `cusparseCreate(&cusparse_handle_)` (the member is
written even when the call fails), return its error on failure; then
`cusparseSetStream(cusparse_handle_, stream_)`, return its error on failure;
then set `initialized_` and return OK. -/
def CudaSparseHandles.Initialize (e : CudaSparseHandles) (w : World) :
    InitResult :=
  if e.initialized_ then ⟨Except.ok (), e, w⟩
  else
    let r := cusparseCreate w
    let e1 := { e with cusparse_handle_ := r.2.1 }
    if r.1 ≠ 0 then ⟨Except.error r.1, e1, r.2.2⟩
    else
      let r2 := cusparseSetStream e1.cusparse_handle_ e1.stream_ r.2.2
      if r2.1 ≠ 0 then ⟨Except.error r2.1, e1, r2.2⟩
      else ⟨Except.ok (), { e1 with initialized_ := true }, r2.2⟩

/-- Result of `CudaSparseHandles::Release` (lines 116-124): the entry and
world afterwards, plus whether the `DCHECK(err == CUSPARSE_STATUS_SUCCESS)`
fired (fatal). -/
structure ReleaseResult where
  entry : CudaSparseHandles
  world : World
  fatal : Bool
deriving DecidableEq, Repr

/-- `CudaSparseHandles::Release` (lines 116-124): if `initialized_`, call
`cusparseDestroy(cusparse_handle_)`, `DCHECK` the result is success (fatal
otherwise), and clear `initialized_`; otherwise do nothing. -/
def CudaSparseHandles.Release (e : CudaSparseHandles) (w : World) :
    ReleaseResult :=
  if e.initialized_ then
    let r := cusparseDestroy e.cusparse_handle_ w
    ⟨{ e with initialized_ := false }, r.2, decide (r.1 ≠ 0)⟩
  else ⟨e, w, false⟩

/-- The destructor `~CudaSparseHandles()` (line 95): just `Release()`. -/
def CudaSparseHandles.destructor (e : CudaSparseHandles) (w : World) :
    World × Bool :=
  let r := CudaSparseHandles.Release e w
  (r.world, r.fatal)

/-- The move constructor (lines 78-83): steal the fields, mark the source
uninitialized; no native call is made (the world is untouched). Returns
(constructed entry, source afterwards, world). -/
def CudaSparseHandles.moveConstruct (rhs : CudaSparseHandles) (w : World) :
    CudaSparseHandles × CudaSparseHandles × World :=
  (⟨rhs.initialized_, rhs.stream_, rhs.cusparse_handle_⟩,
    { rhs with initialized_ := false }, w)

/-- The move assignment operator (lines 85-93).  `isSelf` models the pointer
test `this == &rhs` (when true, the two entry arguments denote the same
object): return `*this` unchanged.  Otherwise `Release()` the destination's
own resource, steal the source's fields, mark the source uninitialized.
Returns (destination afterwards, source afterwards, world, fatal flag of the
`Release`). -/
def CudaSparseHandles.moveAssign (isSelf : Bool)
    (this rhs : CudaSparseHandles) (w : World) :
    CudaSparseHandles × CudaSparseHandles × World × Bool :=
  if isSelf then (this, rhs, w, false)
  else
    let r := CudaSparseHandles.Release this w
    (⟨rhs.initialized_, rhs.stream_, rhs.cusparse_handle_⟩,
      { rhs with initialized_ := false }, r.world, r.fatal)

/-- `CudaSparseHandles::handle` (lines 105-113): `DCHECK(initialized_)`,
return the native handle. -/
def CudaSparseHandles.handle (e : CudaSparseHandles) : DCheck Nat :=
  if e.initialized_ then DCheck.ok e.cusparse_handle_ else DCheck.fatalCheck

/-- The singleton `HandleMap` (line 141): `unordered_map<cudaStream_t,
CudaSparseHandles>`, modelled as an association list keyed by the opaque
stream id. -/
abbrev HandleMap := List (Nat × CudaSparseHandles)

/-- `handle_map->find(stream)`. -/
def HandleMap.find : HandleMap → Nat → Option CudaSparseHandles
  | [], _ => none
  | (k, e) :: rest, s => if k = s then some e else HandleMap.find rest s

/-- The process-wide state `CudaSparse::Initialize` acts on: the singleton
handle map and the native world. -/
structure CacheState where
  handle_map : HandleMap
  world : World
deriving DecidableEq, Repr

/-- Result of `CudaSparse::Initialize`: the returned Status, carrying on
success the key of the map entry the caller's `cusparse_handle_` pointer now
refers to (`&it->second`), and the state afterwards. -/
structure AcquireResult where
  status : Except Nat Nat
  state : CacheState
deriving DecidableEq, Repr

/-- `CudaSparse::Initialize` (lines 163-181), the acquire operation; the
whole body runs under `mutex_lock lock(handle_map_mutex)`.  Look up the
stream: if present, point at the existing entry and return OK.  If absent,
construct `new_handles(cuda_stream_)`, run its `Initialize`; on error,
return it (the local `new_handles` is destroyed on scope exit); on success,
move `new_handles` into the map under the stream key (the moved-from local
is destroyed on scope exit) and return OK. -/
def CudaSparse.Initialize (cuda_stream : Nat) (st : CacheState) :
    AcquireResult :=
  match HandleMap.find st.handle_map cuda_stream with
  | some _ => ⟨Except.ok cuda_stream, st⟩
  | none =>
    let new_handles := CudaSparseHandles.mkForStream cuda_stream
    let r := CudaSparseHandles.Initialize new_handles st.world
    match r.status with
    | Except.error code =>
      let d := CudaSparseHandles.destructor r.entry r.world
      ⟨Except.error code, ⟨st.handle_map, d.1⟩⟩
    | Except.ok _ =>
      let mv := CudaSparseHandles.moveConstruct r.entry r.world
      let d := CudaSparseHandles.destructor mv.2.1 mv.2.2
      ⟨Except.ok cuda_stream, ⟨(cuda_stream, mv.1) :: st.handle_map, d.1⟩⟩

/-- The per-kernel wrapper object `CudaSparse` (what `Coo2csr` runs on):
`initialized_` is set by a successful `CudaSparse::Initialize`, after which
`cusparse_handle_` points at the cached entry's native handle (modelled by
its value). -/
structure CudaSparse where
  initialized_ : Bool
  cusparse_handle_ : Nat
deriving DecidableEq, Repr

/-- `CudaSparse::Coo2csr` (lines 391-405): `DCHECK(initialized_)` (fatal if
it fails), then forward to native `cusparseXcoo2csr` through the cached
handle, mapping a non-success status into an error Status. -/
def CudaSparse.Coo2csr (c : CudaSparse) (w : World) :
    DCheck (Except Nat Unit × World) :=
  if c.initialized_ then
    let r := cusparseXcoo2csr c.cusparse_handle_ w
    if r.1 ≠ 0 then DCheck.ok (Except.error r.1, r.2)
    else DCheck.ok (Except.ok (), r.2)
  else DCheck.fatalCheck

/-- A sequence of acquire steps, one per listed stream id.  Each
`CudaSparse::Initialize` body holds the process-wide `handle_map_mutex` for
its whole duration (lines 166-180), so any concurrent execution of acquires
is some serialization: a schedule is the list of stream ids in the order the
lock admitted them. -/
def runAcquires : List Nat → CacheState → List (Except Nat Nat) × CacheState
  | [], st => ([], st)
  | s :: rest, st =>
    let r := CudaSparse.Initialize s st
    let rr := runAcquires rest r.state
    (r.status :: rr.1, rr.2)

/-- Map invariant: every stored entry is initialized and bound to the stream
it is keyed under. -/
def streamInv (m : HandleMap) : Prop :=
  ∀ p ∈ m, (p.2).stream_ = p.1 ∧ (p.2).initialized_ = true

/-- At most one entry per stream: the keys of the map are distinct. -/
def keysNodup (m : HandleMap) : Prop := (m.map Prod.fst).Nodup

theorem find_eq_none_iff (m : HandleMap) (s : Nat) :
    HandleMap.find m s = none ↔ s ∉ m.map Prod.fst := by
  induction m with
  | nil => simp [HandleMap.find]
  | cons p rest ih =>
    obtain ⟨k, e⟩ := p
    by_cases hk : k = s <;> simp [HandleMap.find, hk, ih, Ne.symm]

theorem acquire_hit (s : Nat) (st : CacheState) (e : CudaSparseHandles)
    (hf : HandleMap.find st.handle_map s = some e) :
    CudaSparse.Initialize s st = ⟨Except.ok s, st⟩ := by
  simp [CudaSparse.Initialize, hf]

theorem acquire_miss_ok (s : Nat) (st : CacheState)
    (hf : HandleMap.find st.handle_map s = none)
    (h0 : st.world.status = 0)
    (h1 : st.world.oracle.getD (st.world.calls.length + 1) 0 = 0) :
    CudaSparse.Initialize s st =
      ⟨Except.ok s,
        ⟨(s, ⟨true, s, st.world.nextHandle⟩) :: st.handle_map,
          ⟨st.world.oracle,
            st.world.calls ++
              [NEvent.create st.world.nextHandle,
               NEvent.setStream st.world.nextHandle s],
            st.world.nextHandle + 1⟩⟩⟩ := by
  have h0' : st.world.oracle[st.world.calls.length]?.getD 0 = 0 := by
    simpa [World.status, List.getD] using h0
  have h1' : st.world.oracle[st.world.calls.length + 1]?.getD 0 = 0 := by
    simpa [List.getD] using h1
  simp [CudaSparse.Initialize, hf, CudaSparseHandles.Initialize,
    CudaSparseHandles.mkForStream, cusparseCreate, cusparseSetStream,
    CudaSparseHandles.moveConstruct, CudaSparseHandles.destructor,
    CudaSparseHandles.Release, World.status, h0', h1']

theorem acquire_create_fail (s : Nat) (st : CacheState) (c : Nat)
    (hf : HandleMap.find st.handle_map s = none)
    (hc : st.world.status = c) (hne : c ≠ 0) :
    CudaSparse.Initialize s st =
      ⟨Except.error c,
        ⟨st.handle_map,
          ⟨st.world.oracle,
            st.world.calls ++ [NEvent.create st.world.nextHandle],
            st.world.nextHandle + 1⟩⟩⟩ := by
  have hc' : st.world.oracle[st.world.calls.length]?.getD 0 = c := by
    simpa [World.status, List.getD] using hc
  simp [CudaSparse.Initialize, hf, CudaSparseHandles.Initialize,
    CudaSparseHandles.mkForStream, cusparseCreate,
    CudaSparseHandles.destructor, CudaSparseHandles.Release,
    World.status, hc', hne]

theorem acquire_bind_fail (s : Nat) (st : CacheState) (c : Nat)
    (hf : HandleMap.find st.handle_map s = none)
    (h0 : st.world.status = 0)
    (h1 : st.world.oracle.getD (st.world.calls.length + 1) 0 = c)
    (hne : c ≠ 0) :
    CudaSparse.Initialize s st =
      ⟨Except.error c,
        ⟨st.handle_map,
          ⟨st.world.oracle,
            st.world.calls ++
              [NEvent.create st.world.nextHandle,
               NEvent.setStream st.world.nextHandle s],
            st.world.nextHandle + 1⟩⟩⟩ := by
  have h0' : st.world.oracle[st.world.calls.length]?.getD 0 = 0 := by
    simpa [World.status, List.getD] using h0
  have h1' : st.world.oracle[st.world.calls.length + 1]?.getD 0 = c := by
    simpa [List.getD] using h1
  simp [CudaSparse.Initialize, hf, CudaSparseHandles.Initialize,
    CudaSparseHandles.mkForStream, cusparseCreate, cusparseSetStream,
    CudaSparseHandles.destructor, CudaSparseHandles.Release,
    World.status, h0', h1', hne]

theorem acquire_miss_creates (s : Nat) (st : CacheState)
    (hf : HandleMap.find st.handle_map s = none) :
    (CudaSparse.Initialize s st).state.world.creates =
      st.world.creates + 1 := by
  by_cases h0 : st.world.status = 0
  · by_cases h1 : st.world.oracle.getD (st.world.calls.length + 1) 0 = 0
    · rw [acquire_miss_ok s st hf h0 h1]
      simp [World.creates, List.filter_append, NEvent.isCreate]
    · rw [acquire_bind_fail s st _ hf h0 rfl h1]
      simp [World.creates, List.filter_append, NEvent.isCreate]
  · rw [acquire_create_fail s st _ hf rfl h0]
    simp [World.creates, List.filter_append, NEvent.isCreate]

theorem acquire_ok_present (s : Nat) (st : CacheState) (r : Nat)
    (st' : CacheState)
    (h : CudaSparse.Initialize s st = ⟨Except.ok r, st'⟩) :
    r = s ∧ ∃ e, HandleMap.find st'.handle_map s = some e := by
  cases hfind : HandleMap.find st.handle_map s with
  | some e =>
    rw [acquire_hit s st e hfind] at h
    simp only [AcquireResult.mk.injEq, Except.ok.injEq] at h
    obtain ⟨hr, hst⟩ := h
    exact ⟨hr.symm, e, hst ▸ hfind⟩
  | none =>
    by_cases h0 : st.world.status = 0
    · by_cases h1 : st.world.oracle.getD (st.world.calls.length + 1) 0 = 0
      · rw [acquire_miss_ok s st hfind h0 h1] at h
        simp only [AcquireResult.mk.injEq, Except.ok.injEq] at h
        obtain ⟨hr, hst⟩ := h
        exact ⟨hr.symm, ⟨true, s, st.world.nextHandle⟩,
          by rw [← hst]; simp [HandleMap.find]⟩
      · rw [acquire_bind_fail s st _ hfind h0 rfl h1] at h
        simp at h
    · rw [acquire_create_fail s st _ hfind rfl h0] at h
      simp at h

/-- C1: once a stream is in the handle map, acquiring it again
(`CudaSparse::Initialize`) returns a reference to the very same entry and
changes nothing: any successful acquire leaves the stream present, and
re-acquiring it returns the same reference with the state (map and native
call log, hence creation and stream-binding calls) completely unchanged;
over the whole history this makes at most one native creation for the
stream. -/
theorem acquire_repeated_idempotent (s : Nat) (st st' : CacheState) (r : Nat)
    (h : CudaSparse.Initialize s st = ⟨Except.ok r, st'⟩) :
    r = s ∧
    CudaSparse.Initialize s st' = ⟨Except.ok s, st'⟩ ∧
    st'.world.creates ≤ st.world.creates + 1 := by
  obtain ⟨hr, e, hfind⟩ := acquire_ok_present s st r st' h
  refine ⟨hr, acquire_hit s st' e hfind, ?_⟩
  cases hfind0 : HandleMap.find st.handle_map s with
  | some e0 =>
    rw [acquire_hit s st e0 hfind0] at h
    simp only [AcquireResult.mk.injEq] at h
    rw [← h.2]
    exact Nat.le_succ _
  | none =>
    have hc := acquire_miss_creates s st hfind0
    rw [h] at hc
    exact Nat.le_of_eq hc

/-- C2: acquiring a stream not yet in the map (when the native calls
succeed) issues the native creation call followed by the call binding the
new handle to this stream's queue, inserts an entry that is initialized,
bound to the stream and owns the created handle, under the stream's key,
and returns success with a reference to that entry. -/
theorem acquire_absent_creates_and_inserts (s : Nat) (st : CacheState)
    (hf : HandleMap.find st.handle_map s = none)
    (h0 : st.world.status = 0)
    (h1 : st.world.oracle.getD (st.world.calls.length + 1) 0 = 0) :
    (CudaSparse.Initialize s st).status = Except.ok s ∧
    (CudaSparse.Initialize s st).state.world.calls =
      st.world.calls ++
        [NEvent.create st.world.nextHandle,
          NEvent.setStream st.world.nextHandle s] ∧
    (CudaSparse.Initialize s st).state.handle_map =
      (s, ⟨true, s, st.world.nextHandle⟩) :: st.handle_map ∧
    HandleMap.find (CudaSparse.Initialize s st).state.handle_map s =
      some ⟨true, s, st.world.nextHandle⟩ := by
  rw [acquire_miss_ok s st hf h0 h1]
  simp [HandleMap.find]

/-- C3: when acquire fails, it returns the native error code of the failing
creation or binding call (a non-success status), the map afterwards still
has no entry for the stream, and a subsequent acquire of the same stream
issues the native creation call again (one more create event) instead of
returning a cached failure. -/
theorem acquire_failure_no_partial_state_and_retries (s : Nat)
    (st st' : CacheState) (c : Nat)
    (h : CudaSparse.Initialize s st = ⟨Except.error c, st'⟩) :
    st'.handle_map = st.handle_map ∧
    HandleMap.find st'.handle_map s = none ∧
    c ≠ 0 ∧
    (c = st.world.status ∨
      (st.world.status = 0 ∧
        c = st.world.oracle.getD (st.world.calls.length + 1) 0)) ∧
    (CudaSparse.Initialize s st').state.world.creates =
      st'.world.creates + 1 := by
  cases hfind : HandleMap.find st.handle_map s with
  | some e =>
    rw [acquire_hit s st e hfind] at h
    simp at h
  | none =>
    by_cases h0 : st.world.status = 0
    · by_cases h1 : st.world.oracle.getD (st.world.calls.length + 1) 0 = 0
      · rw [acquire_miss_ok s st hfind h0 h1] at h
        simp at h
      · rw [acquire_bind_fail s st _ hfind h0 rfl h1] at h
        simp only [AcquireResult.mk.injEq, Except.error.injEq] at h
        obtain ⟨hc, hst⟩ := h
        have hmap : st'.handle_map = st.handle_map := by rw [← hst]
        have hfind' : HandleMap.find st'.handle_map s = none := by
          rw [hmap]; exact hfind
        exact ⟨hmap, hfind', hc ▸ h1, Or.inr ⟨h0, hc.symm⟩,
          acquire_miss_creates s st' hfind'⟩
    · rw [acquire_create_fail s st _ hfind rfl h0] at h
      simp only [AcquireResult.mk.injEq, Except.error.injEq] at h
      obtain ⟨hc, hst⟩ := h
      have hmap : st'.handle_map = st.handle_map := by rw [← hst]
      have hfind' : HandleMap.find st'.handle_map s = none := by
        rw [hmap]; exact hfind
      exact ⟨hmap, hfind', hc ▸ h0, Or.inl hc.symm,
        acquire_miss_creates s st' hfind'⟩

theorem runAcquires_hit (n s : Nat) (st : CacheState)
    (e : CudaSparseHandles)
    (hf : HandleMap.find st.handle_map s = some e) :
    runAcquires (List.replicate n s) st =
      (List.replicate n (Except.ok s), st) := by
  induction n with
  | zero => simp [runAcquires]
  | succ k ih =>
    simp [List.replicate_succ, runAcquires, acquire_hit s st e hf, ih]

/-- C4: any concurrent execution of N acquires of the same stream is some
serialization of atomic acquire steps, because the source holds the single
process-wide `handle_map_mutex` across the whole lookup-or-insert body of
`CudaSparse::Initialize`; for every such serialization, exactly one native
creation call is issued over the N acquires, every caller gets a reference
to the same map entry (the one holding the first-created handle), and the
map keeps at most one entry per stream throughout. -/
theorem concurrent_acquire_single_creation (n s : Nat) (st : CacheState)
    (hf : HandleMap.find st.handle_map s = none)
    (hnd : keysNodup st.handle_map)
    (h0 : st.world.status = 0)
    (h1 : st.world.oracle.getD (st.world.calls.length + 1) 0 = 0) :
    (runAcquires (List.replicate (n + 1) s) st).1 =
      List.replicate (n + 1) (Except.ok s) ∧
    (runAcquires (List.replicate (n + 1) s) st).2.world.creates =
      st.world.creates + 1 ∧
    HandleMap.find (runAcquires (List.replicate (n + 1) s) st).2.handle_map
        s = some ⟨true, s, st.world.nextHandle⟩ ∧
    keysNodup (runAcquires (List.replicate (n + 1) s) st).2.handle_map := by
  have hstep := acquire_miss_ok s st hf h0 h1
  have hrest := runAcquires_hit n s
    ⟨(s, ⟨true, s, st.world.nextHandle⟩) :: st.handle_map,
      ⟨st.world.oracle,
        st.world.calls ++
          [NEvent.create st.world.nextHandle,
            NEvent.setStream st.world.nextHandle s],
        st.world.nextHandle + 1⟩⟩
    ⟨true, s, st.world.nextHandle⟩ (by simp [HandleMap.find])
  have hnotmem : s ∉ st.handle_map.map Prod.fst :=
    (find_eq_none_iff st.handle_map s).mp hf
  have hnd' : (st.handle_map.map Prod.fst).Nodup := hnd
  refine ⟨?_, ?_, ?_, ?_⟩ <;>
    simp [List.replicate_succ, runAcquires, hstep, hrest, HandleMap.find,
      World.creates, List.filter_append, NEvent.isCreate, keysNodup,
      List.nodup_cons, hnotmem, hnd']

theorem find_mem (m : HandleMap) (s : Nat) (e : CudaSparseHandles)
    (h : HandleMap.find m s = some e) : (s, e) ∈ m := by
  induction m with
  | nil => simp [HandleMap.find] at h
  | cons p rest ih =>
    obtain ⟨k, e'⟩ := p
    by_cases hk : k = s
    · subst hk
      simp [HandleMap.find] at h
      subst h
      exact List.mem_cons_self _ _
    · simp [HandleMap.find, hk] at h
      exact List.mem_cons_of_mem _ (ih h)

theorem streamInv_acquire (s : Nat) (st : CacheState)
    (h : streamInv st.handle_map) :
    streamInv (CudaSparse.Initialize s st).state.handle_map := by
  cases hfind : HandleMap.find st.handle_map s with
  | some e => rw [acquire_hit s st e hfind]; exact h
  | none =>
    by_cases h0 : st.world.status = 0
    · by_cases h1 : st.world.oracle.getD (st.world.calls.length + 1) 0 = 0
      · rw [acquire_miss_ok s st hfind h0 h1]
        intro p hp
        rcases List.mem_cons.mp hp with hp | hp
        · subst hp; exact ⟨rfl, rfl⟩
        · exact h p hp
      · rw [acquire_bind_fail s st _ hfind h0 rfl h1]; exact h
    · rw [acquire_create_fail s st _ hfind rfl h0]; exact h

/-- C9: acquiring two different streams returns references to two different
map entries: the references are the two distinct stream keys, and the
entries they denote differ (each stored entry is bound to the stream it is
keyed under, so the two entries carry different streams and never share a
native handle owner). -/
theorem distinct_streams_distinct_entries (s1 s2 r1 r2 : Nat)
    (st st1 st2 : CacheState)
    (hne : s1 ≠ s2)
    (hinv : streamInv st.handle_map)
    (h1 : CudaSparse.Initialize s1 st = ⟨Except.ok r1, st1⟩)
    (h2 : CudaSparse.Initialize s2 st1 = ⟨Except.ok r2, st2⟩) :
    r1 ≠ r2 ∧
    ∀ e1 e2, HandleMap.find st2.handle_map r1 = some e1 →
      HandleMap.find st2.handle_map r2 = some e2 → e1 ≠ e2 := by
  obtain ⟨hr1, -⟩ := acquire_ok_present s1 st r1 st1 h1
  obtain ⟨hr2, -⟩ := acquire_ok_present s2 st1 r2 st2 h2
  subst hr1; subst hr2
  have hinv1 : streamInv st1.handle_map := by
    have hpres := streamInv_acquire r1 st hinv
    rw [h1] at hpres
    exact hpres
  have hinv2 : streamInv st2.handle_map := by
    have hpres := streamInv_acquire r2 st1 hinv1
    rw [h2] at hpres
    exact hpres
  refine ⟨hne, fun e1 e2 hf1 hf2 hee => ?_⟩
  have hs1 := (hinv2 _ (find_mem _ _ _ hf1)).1
  have hs2 := (hinv2 _ (find_mem _ _ _ hf2)).1
  simp only at hs1 hs2
  exact hne (by rw [← hs1, ← hs2, hee])

/-- C10: when, during entry initialization, the native creation call
succeeds but the stream-binding call fails, the entry afterwards owns the
created handle value yet remains uninitialized, the returned error carries
the binding call's status, and destroying the entry issues no native call
at all (the created handle is never passed to the native destroy call). -/
theorem bind_failure_leaves_uninitialized_no_destroy
    (e : CudaSparseHandles) (w : World) (c : Nat)
    (hinit : e.initialized_ = false)
    (h0 : w.status = 0)
    (h1 : w.oracle.getD (w.calls.length + 1) 0 = c)
    (hne : c ≠ 0) :
    (CudaSparseHandles.Initialize e w).status = Except.error c ∧
    (CudaSparseHandles.Initialize e w).entry.initialized_ = false ∧
    (CudaSparseHandles.Initialize e w).entry.cusparse_handle_ =
      w.nextHandle ∧
    (CudaSparseHandles.Initialize e w).world.calls =
      w.calls ++
        [NEvent.create w.nextHandle,
          NEvent.setStream w.nextHandle e.stream_] ∧
    CudaSparseHandles.destructor (CudaSparseHandles.Initialize e w).entry
        (CudaSparseHandles.Initialize e w).world =
      ((CudaSparseHandles.Initialize e w).world, false) := by
  have h0' : w.oracle[w.calls.length]?.getD 0 = 0 := by
    simpa [World.status, List.getD] using h0
  have h1' : w.oracle[w.calls.length + 1]?.getD 0 = c := by
    simpa [List.getD] using h1
  simp [CudaSparseHandles.Initialize, cusparseCreate, cusparseSetStream,
    World.status, hinit, h0', h1', hne, CudaSparseHandles.destructor,
    CudaSparseHandles.Release]

/-- C5 counterexample: move assignment into an entry that is itself
initialized is a relocation, yet it issues a native teardown call: assigning
over the initialized destination entry (handle 5) logs `cusparseDestroy 5`
into a world whose log started empty, so "relocating ... issues no native
teardown or creation call" fails as stated. -/
theorem moveAssign_initialized_dst_issues_destroy :
    (CudaSparseHandles.moveAssign false ⟨true, 0, 5⟩ ⟨true, 1, 7⟩
        ⟨[], [], 10⟩).2.2.1.calls = [NEvent.destroy 5] := by decide

/-- C5 (amended): move construction transfers the fields and issues no
native call; self-move-assignment is a no-op (entry unchanged, so still
initialized, no native call, no fatal check); non-self move assignment
transfers the source's fields and issues no native call on the transferred
handle, but first releases the destination's own resource, issuing exactly
one native destroy call iff the destination was initialized; after either
relocation the source is uninitialized and its destructor performs no
native destroy. -/
theorem move_transfer_spec (dst rhs : CudaSparseHandles) (w : World) :
    (CudaSparseHandles.moveConstruct rhs w =
      (⟨rhs.initialized_, rhs.stream_, rhs.cusparse_handle_⟩,
        ⟨false, rhs.stream_, rhs.cusparse_handle_⟩, w)) ∧
    (CudaSparseHandles.moveAssign true dst rhs w = (dst, rhs, w, false)) ∧
    ((CudaSparseHandles.moveAssign false dst rhs w).1 =
        ⟨rhs.initialized_, rhs.stream_, rhs.cusparse_handle_⟩ ∧
      (CudaSparseHandles.moveAssign false dst rhs w).2.1 =
        ⟨false, rhs.stream_, rhs.cusparse_handle_⟩ ∧
      (CudaSparseHandles.moveAssign false dst rhs w).2.2.1.calls =
        w.calls ++
          (if dst.initialized_ then [NEvent.destroy dst.cusparse_handle_]
            else [])) ∧
    (∀ w2 : World,
      CudaSparseHandles.destructor ⟨false, rhs.stream_, rhs.cusparse_handle_⟩
          w2 = (w2, false)) := by
  refine ⟨rfl, rfl, ?_, ?_⟩
  · by_cases h : dst.initialized_ <;>
      simp [CudaSparseHandles.moveAssign, CudaSparseHandles.Release,
        cusparseDestroy, h]
  · intro w2
    simp [CudaSparseHandles.destructor, CudaSparseHandles.Release]

/-- C6: `Release` (which the destructor runs) issues the native destroy call
iff the entry is initialized, and then exactly once for that entry: the
entry is marked uninitialized afterwards, so a second `Release` of the
resulting entry issues no further native call. -/
theorem release_destroys_iff_initialized_once (e : CudaSparseHandles)
    (w : World) :
    (CudaSparseHandles.Release e w).world.calls =
      w.calls ++
        (if e.initialized_ then [NEvent.destroy e.cusparse_handle_]
          else []) ∧
    (CudaSparseHandles.Release e w).entry.initialized_ = false ∧
    (CudaSparseHandles.Release (CudaSparseHandles.Release e w).entry
        (CudaSparseHandles.Release e w).world).world.calls =
      (CudaSparseHandles.Release e w).world.calls := by
  by_cases h : e.initialized_ <;>
    simp [CudaSparseHandles.Release, cusparseDestroy, h]

/-- C7: every usage of a handle entry requires it to be initialized: both
`handle()` and the wrapped native operation `Coo2csr` hit their fatal
`DCHECK` exactly when the entry is uninitialized (a contract violation, not
a recoverable error path: the uninitialized case never reaches the
recoverable `Except` result). -/
theorem uninitialized_use_is_fatal_check (e : CudaSparseHandles)
    (c : CudaSparse) (w : World) :
    (CudaSparseHandles.handle e = DCheck.fatalCheck ↔
      e.initialized_ = false) ∧
    (CudaSparse.Coo2csr c w = DCheck.fatalCheck ↔
      c.initialized_ = false) := by
  constructor
  · by_cases h : e.initialized_ <;> simp [CudaSparseHandles.handle, h]
  · by_cases h : c.initialized_
    · simp only [CudaSparse.Coo2csr, cusparseXcoo2csr, h, if_true]
      constructor
      · split <;> simp
      · simp [h]
    · simp [CudaSparse.Coo2csr, h]

/-- C8: during destruction (`destructor` = `Release`) the fatal
internal-consistency check fires exactly when the entry was initialized and
the issued native destroy returned a non-success status; the destructor has
no recoverable error channel (its only outputs are the world and the fatal
flag), so a destroy failure is never surfaced as a recoverable error. -/
theorem destroy_failure_is_fatal (e : CudaSparseHandles) (w : World) :
    (CudaSparseHandles.destructor e w).2 =
      (e.initialized_ && decide (w.status ≠ 0)) := by
  by_cases h : e.initialized_ <;>
    simp [CudaSparseHandles.destructor, CudaSparseHandles.Release,
      cusparseDestroy, h]

/-- Witness for C1: acquiring stream 5 in the empty state succeeds, and the
theorem applied there gives idempotence of the second acquire. -/
theorem acquire_repeated_idempotent_witness :
    CudaSparse.Initialize 5 ⟨[], ⟨[], [], 0⟩⟩ =
      ⟨Except.ok 5,
        ⟨[(5, ⟨true, 5, 0⟩)],
          ⟨[], [NEvent.create 0, NEvent.setStream 0 5], 1⟩⟩⟩ ∧
    (5 = 5 ∧
      CudaSparse.Initialize 5
          ⟨[(5, ⟨true, 5, 0⟩)],
            ⟨[], [NEvent.create 0, NEvent.setStream 0 5], 1⟩⟩ =
        ⟨Except.ok 5,
          ⟨[(5, ⟨true, 5, 0⟩)],
            ⟨[], [NEvent.create 0, NEvent.setStream 0 5], 1⟩⟩⟩ ∧
      (⟨[], [NEvent.create 0, NEvent.setStream 0 5], 1⟩ : World).creates ≤
        (⟨[], [], 0⟩ : World).creates + 1) :=
  ⟨by decide,
    acquire_repeated_idempotent 5 ⟨[], ⟨[], [], 0⟩⟩
      ⟨[(5, ⟨true, 5, 0⟩)],
        ⟨[], [NEvent.create 0, NEvent.setStream 0 5], 1⟩⟩ 5 (by decide)⟩

/-- Witness for C2: stream 5 is absent from the empty map and both native
calls succeed, and the theorem applied there yields the creation, binding,
insertion and success facts. -/
theorem acquire_absent_creates_and_inserts_witness :
    HandleMap.find ([] : HandleMap) 5 = none ∧
    (⟨[], [], 0⟩ : World).status = 0 ∧
    ([] : List Nat).getD (([] : List NEvent).length + 1) 0 = 0 ∧
    ((CudaSparse.Initialize 5 ⟨[], ⟨[], [], 0⟩⟩).status = Except.ok 5 ∧
      (CudaSparse.Initialize 5 ⟨[], ⟨[], [], 0⟩⟩).state.world.calls =
        [NEvent.create 0, NEvent.setStream 0 5] ∧
      (CudaSparse.Initialize 5 ⟨[], ⟨[], [], 0⟩⟩).state.handle_map =
        [(5, ⟨true, 5, 0⟩)] ∧
      HandleMap.find
          (CudaSparse.Initialize 5 ⟨[], ⟨[], [], 0⟩⟩).state.handle_map 5 =
        some ⟨true, 5, 0⟩) :=
  ⟨by decide, by decide, by decide,
    acquire_absent_creates_and_inserts 5 ⟨[], ⟨[], [], 0⟩⟩ (by decide)
      (by decide) (by decide)⟩

/-- Witness for C3: with an oracle failing the first native call with code
7, acquiring stream 3 fails, and the theorem applied there gives the
error-code, no-partial-state and retry facts. -/
theorem acquire_failure_no_partial_state_and_retries_witness :
    CudaSparse.Initialize 3 ⟨[], ⟨[7], [], 0⟩⟩ =
      ⟨Except.error 7, ⟨[], ⟨[7], [NEvent.create 0], 1⟩⟩⟩ ∧
    (([] : HandleMap) = [] ∧
      HandleMap.find ([] : HandleMap) 3 = none ∧
      7 ≠ 0 ∧
      (7 = (⟨[7], [], 0⟩ : World).status ∨
        ((⟨[7], [], 0⟩ : World).status = 0 ∧
          7 = ([7] : List Nat).getD (([] : List NEvent).length + 1) 0)) ∧
      (CudaSparse.Initialize 3
          ⟨[], ⟨[7], [NEvent.create 0], 1⟩⟩).state.world.creates =
        (⟨[7], [NEvent.create 0], 1⟩ : World).creates + 1) :=
  ⟨by decide,
    acquire_failure_no_partial_state_and_retries 3 ⟨[], ⟨[7], [], 0⟩⟩
      ⟨[], ⟨[7], [NEvent.create 0], 1⟩⟩ 7 (by decide)⟩

/-- Witness for C4: three serialized acquires of stream 5 from the empty
state, the theorem applied there giving one creation, identical references
and key uniqueness. -/
theorem concurrent_acquire_single_creation_witness :
    HandleMap.find ([] : HandleMap) 5 = none ∧
    keysNodup ([] : HandleMap) ∧
    (⟨[], [], 0⟩ : World).status = 0 ∧
    ([] : List Nat).getD (([] : List NEvent).length + 1) 0 = 0 ∧
    ((runAcquires (List.replicate (2 + 1) 5) ⟨[], ⟨[], [], 0⟩⟩).1 =
        List.replicate (2 + 1) (Except.ok 5) ∧
      (runAcquires (List.replicate (2 + 1) 5)
          ⟨[], ⟨[], [], 0⟩⟩).2.world.creates =
        (⟨[], [], 0⟩ : World).creates + 1 ∧
      HandleMap.find
          (runAcquires (List.replicate (2 + 1) 5)
            ⟨[], ⟨[], [], 0⟩⟩).2.handle_map 5 = some ⟨true, 5, 0⟩ ∧
      keysNodup
        (runAcquires (List.replicate (2 + 1) 5)
          ⟨[], ⟨[], [], 0⟩⟩).2.handle_map) :=
  ⟨by decide, by simp [keysNodup], by decide, by decide,
    concurrent_acquire_single_creation 2 5 ⟨[], ⟨[], [], 0⟩⟩ (by decide)
      (by simp [keysNodup]) (by decide) (by decide)⟩

/-- Witness for C9: acquiring streams 0 and then 1 from the empty state,
the theorem applied there giving distinct references and distinct
entries. -/
theorem distinct_streams_distinct_entries_witness :
    (0 : Nat) ≠ 1 ∧
    streamInv ([] : HandleMap) ∧
    CudaSparse.Initialize 0 ⟨[], ⟨[], [], 0⟩⟩ =
      ⟨Except.ok 0,
        ⟨[(0, ⟨true, 0, 0⟩)],
          ⟨[], [NEvent.create 0, NEvent.setStream 0 0], 1⟩⟩⟩ ∧
    CudaSparse.Initialize 1
        ⟨[(0, ⟨true, 0, 0⟩)],
          ⟨[], [NEvent.create 0, NEvent.setStream 0 0], 1⟩⟩ =
      ⟨Except.ok 1,
        ⟨[(1, ⟨true, 1, 1⟩), (0, ⟨true, 0, 0⟩)],
          ⟨[], [NEvent.create 0, NEvent.setStream 0 0, NEvent.create 1,
            NEvent.setStream 1 1], 2⟩⟩⟩ ∧
    ((0 : Nat) ≠ 1 ∧
      ∀ e1 e2,
        HandleMap.find
            [(1, ⟨true, 1, 1⟩), (0, ⟨true, 0, 0⟩)] 0 = some e1 →
        HandleMap.find
            [(1, ⟨true, 1, 1⟩), (0, ⟨true, 0, 0⟩)] 1 = some e2 →
        e1 ≠ e2) :=
  ⟨by decide, by simp [streamInv], by decide, by decide,
    distinct_streams_distinct_entries 0 1 0 1 ⟨[], ⟨[], [], 0⟩⟩
      ⟨[(0, ⟨true, 0, 0⟩)],
        ⟨[], [NEvent.create 0, NEvent.setStream 0 0], 1⟩⟩
      ⟨[(1, ⟨true, 1, 1⟩), (0, ⟨true, 0, 0⟩)],
        ⟨[], [NEvent.create 0, NEvent.setStream 0 0, NEvent.create 1,
          NEvent.setStream 1 1], 2⟩⟩
      (by decide) (by simp [streamInv]) (by decide) (by decide)⟩

/-- Witness for C10: an uninitialized entry for stream 4, an oracle whose
first call succeeds and whose second fails with code 9, and the theorem
applied there: error 9 returned, entry left uninitialized holding the
created handle, and a no-op destructor. -/
theorem bind_failure_leaves_uninitialized_no_destroy_witness :
    (⟨false, 4, 0⟩ : CudaSparseHandles).initialized_ = false ∧
    (⟨[0, 9], [], 0⟩ : World).status = 0 ∧
    ([0, 9] : List Nat).getD (([] : List NEvent).length + 1) 0 = 9 ∧
    (9 : Nat) ≠ 0 ∧
    ((CudaSparseHandles.Initialize ⟨false, 4, 0⟩
          ⟨[0, 9], [], 0⟩).status = Except.error 9 ∧
      (CudaSparseHandles.Initialize ⟨false, 4, 0⟩
          ⟨[0, 9], [], 0⟩).entry.initialized_ = false ∧
      (CudaSparseHandles.Initialize ⟨false, 4, 0⟩
          ⟨[0, 9], [], 0⟩).entry.cusparse_handle_ = 0 ∧
      (CudaSparseHandles.Initialize ⟨false, 4, 0⟩
          ⟨[0, 9], [], 0⟩).world.calls =
        [NEvent.create 0, NEvent.setStream 0 4] ∧
      CudaSparseHandles.destructor
          (CudaSparseHandles.Initialize ⟨false, 4, 0⟩
            ⟨[0, 9], [], 0⟩).entry
          (CudaSparseHandles.Initialize ⟨false, 4, 0⟩
            ⟨[0, 9], [], 0⟩).world =
        ((CudaSparseHandles.Initialize ⟨false, 4, 0⟩
          ⟨[0, 9], [], 0⟩).world, false)) :=
  ⟨by decide, by decide, by decide, by decide,
    bind_failure_leaves_uninitialized_no_destroy ⟨false, 4, 0⟩
      ⟨[0, 9], [], 0⟩ 9 (by decide) (by decide) (by decide) (by decide)⟩

end CudaSparseSpec
